import Mathlib

/-!
Shallow embedding of the `blog-by-go` static-blog server (`main.go` and its
second variant, called the "Alt" variant below).  Strings are modelled as
Lean `String`s (sequences of code points; the Go code only manipulates ASCII
in the relevant paths) with structurally recursive character-list helpers so
that every definition evaluates inside the kernel, `time.Time` as `Int`
(with `After = (>)`), and the filesystem as an explicit snapshot of the
posts directory.  External collaborators (goldmark conversion, YAML
unmarshalling) are parameters of an `Env` record, since the repository
treats them as black boxes.
-/

/-- Character-list version of splitting a string on a single separator
character (the only separators used by the code are `/` and newline). -/
def splitChar (sep : Char) : List Char → List (List Char)
  | [] => [[]]
  | c :: rest =>
    match splitChar sep rest with
    | [] => [[c]]
    | h :: t => if c = sep then [] :: h :: t else (c :: h) :: t

/-- Character-list version of joining strings with a single separator. -/
def joinWith (sep : Char) : List (List Char) → List Char
  | [] => []
  | [x] => x
  | x :: xs => x ++ sep :: joinWith sep xs

/-- Split a string into fields at every occurrence of character `sep`. -/
def strSplit (s : String) (sep : Char) : List String :=
  (splitChar sep s.toList).map String.mk

/-- Join a list of strings with the single-character separator `sep`. -/
def strJoin (sep : Char) (xs : List String) : String :=
  String.mk (joinWith sep (xs.map String.toList))

/-- Boolean test that `t` is a suffix of `s`. -/
def strEndsWith (s t : String) : Bool :=
  t.toList.isSuffixOf s.toList

/-- Boolean test that `t` begins `s`. -/
def strStartsWith (s t : String) : Bool :=
  t.toList.isPrefixOf s.toList

/-- Boolean test that `needle` occurs contiguously inside a character
list. -/
def containsSeq (needle : List Char) : List Char → Bool
  | [] => needle.isEmpty
  | c :: t => needle.isPrefixOf (c :: t) || containsSeq needle t

/-- Boolean test that `sub` occurs as a substring of `s`. -/
def strContainsSub (s sub : String) : Bool :=
  containsSeq sub.toList s.toList

/-- Model of `strings.TrimSuffix`: drop `suffix` from the end of `s` when
present, otherwise return `s` unchanged. -/
def trimSuffix (s suffix : String) : String :=
  if strEndsWith s suffix then
    String.mk (s.toList.take (s.toList.length - suffix.toList.length))
  else s

/-- Model of `strings.TrimPrefix`: drop `p` from the start of `s` when
present, otherwise return `s` unchanged. -/
def trimPrefixStr (s p : String) : String :=
  if strStartsWith s p then String.mk (s.toList.drop p.toList.length) else s

/-- Model of `strings.ReplaceAll` for a one-character pattern and
replacement (the only shape `CleanTitle` uses), which is a character map. -/
def replaceChar (s : String) (pat rep : Char) : String :=
  String.mk (s.toList.map (fun c => if c = pat then rep else c))

/-- Helper for `filepathExt`: walk the reversed character list of a path,
collecting the characters that follow the final dot of the final element. -/
def extFromRev (acc : List Char) : List Char → List Char
  | [] => []
  | c :: rest =>
    if c = '/' then []
    else if c = '.' then '.' :: acc
    else extFromRev (c :: acc) rest

/-- Model of `path/filepath.Ext`: the suffix beginning at the final dot in
the final element of the path; empty when there is no dot. -/
def filepathExt (path : String) : String :=
  String.mk (extFromRev [] path.toList.reverse)

/-- Stack-based processing of path elements, equivalent to the lexical
algorithm of `path/filepath.Clean`: empty and `.` elements vanish, `..` pops
a previous element (or is kept at the start of a relative path, or vanishes
at the root of a rooted path).  The stack is accumulated in reverse. -/
def cleanStack (rooted : Bool) (stack : List String) : List String → List String
  | [] => stack
  | e :: rest =>
    if e = "" || e = "." then cleanStack rooted stack rest
    else if e = ".." then
      match stack with
      | [] => if rooted then cleanStack rooted [] rest else cleanStack rooted [".."] rest
      | top :: s' =>
        if top = ".." then cleanStack rooted (".." :: top :: s') rest
        else cleanStack rooted s' rest
    else cleanStack rooted (e :: stack) rest

/-- Model of `path/filepath.Clean` (Unix rules): shortest lexically
equivalent path, with `.`/`..`/repeated-separator processing. -/
def filepathClean (path : String) : String :=
  if path = "" then "."
  else
    let rooted := strStartsWith path "/"
    let body := strJoin '/' (cleanStack rooted [] (strSplit path '/')).reverse
    if rooted then "/" ++ body
    else if body = "" then "." else body

/-- Model of `path/filepath.Join` for two elements: empty elements are
skipped, the rest are joined with a separator and the result is cleaned. -/
def filepathJoin (a b : String) : String :=
  if a = "" && b = "" then ""
  else if a = "" then filepathClean b
  else if b = "" then filepathClean a
  else filepathClean (a ++ "/" ++ b)

/-- Model of `path/filepath.Base`: last element of the path after removing
trailing separators; `.` for the empty path, `/` for an all-separator path. -/
def filepathBase (path : String) : String :=
  if path = "" then "."
  else
    let trimmed := (path.toList.reverse.dropWhile (· = '/')).reverse
    if trimmed = [] then "/"
    else String.mk (trimmed.reverse.takeWhile (· ≠ '/')).reverse

/-- Word characters for the title-casing model below: a word is begun by a
letter or digit; an apostrophe or dot occurring inside a word keeps the word
going (approximating the Unicode word-break rules used by `x/text/cases`). -/
def isWordStart (c : Char) : Bool := c.isAlpha || c.isDigit

/-- Helper for `casesTitle`: map characters, tracking whether we are inside
a word.  The first letter of a word is uppercased, later ones lowercased. -/
def titleMap (inWord : Bool) : List Char → List Char
  | [] => []
  | c :: rest =>
    if isWordStart c then
      (if inWord then c.toLower else c.toUpper) :: titleMap true rest
    else if inWord && (c = Char.ofNat 39 || c = '.') then
      c :: titleMap true rest
    else c :: titleMap false rest

/-- Model of `cases.Title(language.English).String`: capitalize the first
letter of each word and lowercase the rest (ASCII approximation of the
library's Unicode title casing). -/
def casesTitle (s : String) : String :=
  String.mk (titleMap false s.toList)

/-- Embedding of `CleanTitle` from `main.go`: strip the extension, replace
`-` and `_` by spaces, and title-case the words. -/
def CleanTitle (filename : String) : String :=
  let title := trimSuffix filename (filepathExt filename)
  let title := replaceChar (replaceChar title '-' ' ') '_' ' '
  casesTitle title

/-- Result of front-matter detection on a file's raw content. -/
inductive FmParse
  | noBlock
  | block (meta body : String)
  | malformed
deriving DecidableEq

/-- Helper: split the lines after an opening `---` delimiter into the
metadata lines and the body lines, failing when no closing `---` line
exists. -/
def fmSplitLines : List String → Option (List String × List String)
  | [] => none
  | l :: rest =>
    if l = "---" then some ([], rest)
    else (fmSplitLines rest).map (fun mb => (l :: mb.1, mb.2))

/-- Model of the `adrg/frontmatter` delimiter scan (YAML `---` fences): a
file whose first line is `---` has a front-matter block ending at the next
`---` line; a missing closing delimiter is malformed; otherwise the file has
no block and is returned whole. -/
def detectFrontmatter (content : String) : FmParse :=
  match strSplit content '\n' with
  | [] => .noBlock
  | first :: rest =>
    if first = "---" then
      match fmSplitLines rest with
      | some mb => .block (strJoin '\n' mb.1) (strJoin '\n' mb.2)
      | none => .malformed
    else .noBlock

/-- Data recorded for one file of the posts directory: its content, its
modification time, and whether `os.Stat` / `os.ReadFile` succeed on it. -/
structure FileData where
  content : String
  modTime : Int
  statOk : Bool
  readOk : Bool
deriving DecidableEq, Inhabited

/-- Snapshot of the posts directory: its entries (file name paired with file
data) and whether the directory itself can be opened and read. -/
structure FS where
  posts : List (String × FileData)
  dirReadable : Bool
deriving DecidableEq, Inhabited

/-- Resolve a path against the posts directory `dir`: the file whose joined
path equals `path`. -/
def FS.findFile (fs : FS) (dir path : String) : Option FileData :=
  (fs.posts.find? (fun e => filepathJoin dir e.1 == path)).map Prod.snd

/-- Error cases of `os.Stat`, distinguished because the Alt variant tests
`os.IsNotExist` on the result. -/
inductive StatErr
  | notExist
  | ioFail
deriving DecidableEq

/-- Model of `os.Stat` restricted to the posts directory. -/
def FS.stat (fs : FS) (dir path : String) : Except StatErr FileData :=
  match fs.findFile dir path with
  | none => .error .notExist
  | some d => if d.statOk then .ok d else .error .ioFail

/-- Model of `os.ReadFile` restricted to the posts directory: `none` when
the file is absent or unreadable. -/
def FS.readFile (fs : FS) (dir path : String) : Option String :=
  match fs.findFile dir path with
  | none => none
  | some d => if d.readOk then some d.content else none

/-- External collaborators of `RenderMarkdown`: the goldmark Markdown-to-HTML
conversion and the success of unmarshalling a front-matter block into the
target value passed by the caller. -/
structure Env where
  convert : String → String
  unmarshalOk : String → Bool

/-- Outcome of `RenderMarkdown`: an HTML string, a returned error (only the
initial `os.ReadFile` can return one), or a panic (the code panics on a
front-matter or conversion error instead of returning it). -/
inductive RmResult
  | ok (html : String)
  | ioErr
  | panicked
deriving DecidableEq

/-- The exact string handed to the Markdown converter: the file content with
a leading front-matter block removed when one is present. -/
def renderInput (md : String) : String :=
  match detectFrontmatter md with
  | .block _ body => body
  | _ => md

/-- Embedding of `RenderMarkdown` from `main.go`: read the file (returning
the read error if any), strip the front-matter block (panicking when the
block is malformed or cannot be unmarshalled), and convert the remainder. -/
def RenderMarkdown (env : Env) (fs : FS) (dir path : String) : RmResult :=
  match fs.readFile dir path with
  | none => .ioErr
  | some md =>
    match detectFrontmatter md with
    | .malformed => .panicked
    | .block meta body => if env.unmarshalOk meta then .ok (env.convert body) else .panicked
    | .noBlock => .ok (env.convert md)

example : CleanTitle "my-first_post.md" = "My First Post" := by decide
example : filepathJoin "post" "../nav/about.md" = "nav/about.md" := by decide
example : filepathBase "post/x.md" = "x.md" := by decide
example : detectFrontmatter "---\ntitle: x\n---\nbody" = .block "title: x" "body" := by decide

/-- Record built for each blog post (struct `PostData` in the source; the
`template.HTML` content is a string, `time.Time` an integer timestamp). -/
structure PostData where
  Title : String
  Date : Int
  Slug : String
  Content : String
deriving DecidableEq, Inhabited

/-- The ordering `sort.Slice` establishes: `less(i, j) = Date_i.After(Date_j)`
sorts most-recent-first, so adjacent results satisfy `Date_j ≤ Date_i`. -/
def dateDescR (a b : PostData) : Prop := b.Date ≤ a.Date

instance : DecidableRel dateDescR := fun a b => Int.decLe b.Date a.Date

instance : IsTrans PostData dateDescR := ⟨fun _ _ _ hab hbc => le_trans hbc hab⟩

instance : IsTotal PostData dateDescR := ⟨fun a b => (le_total a.Date b.Date).symm⟩

/-- Contract-level model of `sort.Slice(posts, less)` with
`less(i,j) = posts[i].Date.After(posts[j].Date)`: some permutation of the
input that is sorted by date descending.  The Go library guarantees exactly
sortedness and permutation (it is documented as NOT stable); the canonical
sorted permutation is used here, and the implementation-level tie behaviour
of the library's pattern-defeating quicksort is modelled separately below as
`sortSliceGo`. -/
def sortByDateDesc (l : List PostData) : List PostData :=
  List.insertionSort dateDescR l

/-- Byte-lexicographic comparison of names, as `sort.Strings` uses (code
points coincide with bytes for ASCII names). -/
def charListLe : List Char → List Char → Bool
  | [], _ => true
  | _ :: _, [] => false
  | a :: as, b :: bs => if a < b then true else if b < a then false else charListLe as bs

/-- String version of `charListLe`, as a relation for sorting. -/
def strLeR (a b : String) : Prop := charListLe a.toList b.toList = true

instance : DecidableRel strLeR := fun _ _ => instDecidableEqBool _ _

/-- Outcome of matching a directory entry name against the glob pattern
`*.md`: `*` matches any separator-free sequence, followed by literal `.md`,
so a name matches exactly when it is separator-free and ends in `.md`. -/
def matchesMdName (n : String) : Bool :=
  strEndsWith n ".md" && !(n.toList.contains '/')

/-- Model of `filepath.Glob(dir ++ "/*.md")`: when the directory can be
opened, its matching entry names sorted lexicographically (Go's `glob` sorts
`Readdirnames` output with `sort.Strings`); when opening or reading the
directory fails, Go's `glob` ignores the error and produces no matches, and
the only error `Glob` can return is `ErrBadPattern`, impossible for this
fixed pattern. -/
def globNames (fs : FS) : List String :=
  if fs.dirReadable then
    List.insertionSort strLeR ((fs.posts.map Prod.fst).filter (fun n => matchesMdName n))
  else []

/-- The full glob result: each matching name joined onto the directory. -/
def globMd (fs : FS) (dir : String) : List String :=
  (globNames fs).map (fun n => filepathJoin dir n)

/-- Error outcomes of the per-file loop of `LoadBlogPosts`. -/
inductive LErr
  | fsErr
  | panicked
deriving DecidableEq

/-- Embedding of the per-file loop of `LoadBlogPosts`: derive slug and title
from the file name, stat the file for its modification time, render it, and
abort on the first failure (a stat or read error is returned; a front-matter
failure panics inside `RenderMarkdown`). -/
def loadLoop (env : Env) (fs : FS) (dir : String) : List String → Except LErr (List PostData)
  | [] => .ok []
  | path :: rest =>
    let filename := filepathBase path
    let slug := trimSuffix filename (filepathExt filename)
    let title := CleanTitle filename
    match fs.stat dir path with
    | .error _ => .error .fsErr
    | .ok info =>
      match RenderMarkdown env fs dir path with
      | .ioErr => .error .fsErr
      | .panicked => .error .panicked
      | .ok content =>
        match loadLoop env fs dir rest with
        | .error e => .error e
        | .ok ps => .ok (⟨title, info.modTime, slug, content⟩ :: ps)

/-- Outcome of `LoadBlogPosts`: the sorted records, a returned error, or a
propagated panic. -/
inductive LoadResult
  | ok (posts : List PostData)
  | fsErr
  | panicked
deriving DecidableEq

/-- Embedding of `LoadBlogPosts`, parametrized by the posts directory name
(`post` in `main.go`, `posts` in the Alt variant): glob the directory, build
a record per file, and sort by date, latest first. -/
def LoadBlogPostsDir (env : Env) (fs : FS) (dir : String) : LoadResult :=
  match loadLoop env fs dir (globMd fs dir) with
  | .error .fsErr => .fsErr
  | .error .panicked => .panicked
  | .ok posts => .ok (sortByDateDesc posts)

/-- The `main.go` variant reads directory `post`. -/
def LoadBlogPosts (env : Env) (fs : FS) : LoadResult :=
  LoadBlogPostsDir env fs "post"

/-- The Alt variant reads directory `posts`. -/
def LoadBlogPostsAlt (env : Env) (fs : FS) : LoadResult :=
  LoadBlogPostsDir env fs "posts"

/-- Template environment: whether `template.ParseFiles` succeeds for the
post and home template pairs, and whether `Execute` succeeds on them. -/
structure TmplEnv where
  postParseOk : Bool
  postExecOk : Bool
  homeParseOk : Bool
  homeExecOk : Bool
deriving DecidableEq, Inhabited

/-- Observable outcome of one handler invocation: a rendered page carrying
the data passed to the template, an HTTP 404 or 500 response, a panic in the
handler goroutine (`template.Must` or `RenderMarkdown`'s panics), or process
termination (`log.Fatal`). -/
inductive HResult
  | page (title : String) (post : PostData)
  | homePage (title : String) (posts : List PostData)
  | notFound
  | serverError
  | panicked
  | fatalExit
deriving DecidableEq

/-- The file path `PostHandler` (main.go) constructs from the request path:
the slug after `/post/` joined onto the posts directory with `.md`
appended, with no validation of the slug. -/
def postFilePath (urlPath : String) : String :=
  filepathJoin "post" (trimPrefixStr urlPath "/post/" ++ ".md")

/-- Embedding of `PostHandler` from `main.go`: render the file named by the
slug (404 on a returned error), build a record whose `Date` is `time.Now()`
(passed in as `now`), then parse the templates with `template.Must`
(panicking on failure) and execute them (500 on failure). -/
def PostHandler (env : Env) (fs : FS) (tmpl : TmplEnv) (now : Int) (urlPath : String) : HResult :=
  let slug := trimPrefixStr urlPath "/post/"
  match RenderMarkdown env fs "post" (postFilePath urlPath) with
  | .ioErr => .notFound
  | .panicked => .panicked
  | .ok content =>
    let post : PostData := ⟨CleanTitle slug, now, slug, content⟩
    if tmpl.postParseOk then
      if tmpl.postExecOk then .page post.Title post else .serverError
    else .panicked

/-- Embedding of `HomeHandler` from `main.go`: a `LoadBlogPosts` error is
passed to `log.Fatal` (process exit), template parsing uses `template.Must`
(panic on failure), and an `Execute` error is also passed to `log.Fatal`. -/
def HomeHandler (env : Env) (fs : FS) (tmpl : TmplEnv) : HResult :=
  match LoadBlogPosts env fs with
  | .fsErr => .fatalExit
  | .panicked => .panicked
  | .ok posts =>
    if tmpl.homeParseOk then
      if tmpl.homeExecOk then .homePage "My Blog" posts else .fatalExit
    else .panicked

/-- Outcome of the Alt variant's `LoadPost`. -/
inductive LPResult
  | ok (post : PostData)
  | err
  | panicked
deriving DecidableEq

/-- Embedding of `LoadPost` from the Alt variant: stat the expected file and
return the error only when it is a does-not-exist error, render the file,
derive the title from the file name, and stat again for the modification
time used as the record's date. -/
def LoadPost (env : Env) (fs : FS) (slug : String) : LPResult :=
  let file := filepathJoin "posts" (slug ++ ".md")
  match fs.stat "posts" file with
  | .error .notExist => .err
  | _ =>
    match RenderMarkdown env fs "posts" file with
    | .ioErr => .err
    | .panicked => .panicked
    | .ok content =>
      let filename := filepathBase file
      let title := CleanTitle filename
      match fs.stat "posts" file with
      | .error _ => .err
      | .ok info => .ok ⟨title, info.modTime, slug, content⟩

/-- The slug the Alt variant's handler computes: the request path with its
first six characters (the route prefix) sliced off. -/
def altSlug (urlPath : String) : String :=
  String.mk (urlPath.toList.drop 6)

/-- Embedding of `PostHandler` from the Alt variant: slice off the `/post/`
prefix, delegate to `LoadPost` (404 on its error), then parse (panic via
`template.Must` on failure) and execute (500 on failure) the templates. -/
def AltPostHandler (env : Env) (fs : FS) (tmpl : TmplEnv) (urlPath : String) : HResult :=
  match LoadPost env fs (altSlug urlPath) with
  | .err => .notFound
  | .panicked => .panicked
  | .ok post =>
    if tmpl.postParseOk then
      if tmpl.postExecOk then .page post.Title post else .serverError
    else .panicked

/-- The post record a handler outcome carries, when it rendered a post. -/
def handlerPost : HResult → Option PostData
  | .page _ p => some p
  | _ => none

/-- Identity environment used by concrete witnesses: conversion keeps the
Markdown text, unmarshalling always succeeds. -/
def idEnv : Env := ⟨fun s => s, fun _ => true⟩

/-- Per-file health: the stat succeeds and rendering returns HTML. -/
def statIsOk (fs : FS) (dir path : String) : Bool :=
  match fs.stat dir path with
  | .ok _ => true
  | _ => false

/-- Rendering returns an HTML string (no error, no panic). -/
def rmIsOk (env : Env) (fs : FS) (dir path : String) : Bool :=
  match RenderMarkdown env fs dir path with
  | .ok _ => true
  | _ => false

example :
    LoadBlogPosts idEnv
      ⟨[("b.md", ⟨"B", 1, true, true⟩), ("a.md", ⟨"A", 2, true, true⟩)], true⟩ =
    .ok [⟨"A", 2, "a", "A"⟩, ⟨"B", 1, "b", "B"⟩] := by decide

/-!
Implementation-level model of `sort.Slice`, transcribed from the Go
standard library's pattern-defeating quicksort (`sort/zsortfunc.go`,
Go 1.19 and later).  `sort.Slice` is documented as not stable, and the
exact order it leaves equal elements in is decided by this algorithm; the
transcription below reproduces it step by step over an explicit array, with
a fuel argument standing in for each `for` loop (ample fuel is supplied by
`sortSliceGo`, and every claim below evaluates it only on concrete input).
The comparison `less` receives the two compared elements, matching the Go
closure `less(i, j) = posts[i].Date.After(posts[j].Date)` which reads the
slice at its current state.
-/

/-- Swap of two array cells (`data.Swap(i, j)`). -/
def swapA [Inhabited α] (arr : Array α) (i j : Nat) : Array α :=
  let x := arr.get! i
  let y := arr.get! j
  (arr.set! i y).set! j x

/-- Inner shifting loop of `insertionSort_func`. -/
def isortInner [Inhabited α] (less : α → α → Bool) (a : Nat) : Nat → Array α → Nat → Array α
  | 0, arr, _ => arr
  | fuel+1, arr, j =>
    if a < j && less (arr.get! j) (arr.get! (j-1)) then
      isortInner less a fuel (swapA arr j (j-1)) (j-1)
    else arr

/-- Outer loop of `insertionSort_func`. -/
def isortOuter [Inhabited α] (less : α → α → Bool) (a b : Nat) : Nat → Array α → Nat → Array α
  | 0, arr, _ => arr
  | fuel+1, arr, i =>
    if i < b then isortOuter less a b fuel (isortInner less a (b+1) arr i) (i+1)
    else arr

/-- Model of `insertionSort_func(data, a, b)`. -/
def goInsertionSort [Inhabited α] (less : α → α → Bool) (arr : Array α) (a b : Nat) : Array α :=
  isortOuter less a b (b+1) arr (a+1)

/-- Model of `siftDown_func(data, root, hi, first)`. -/
def siftDownFn [Inhabited α] (less : α → α → Bool) (first hi : Nat) : Nat → Array α → Nat → Array α
  | 0, arr, _ => arr
  | fuel+1, arr, root =>
    let child := 2*root + 1
    if child ≥ hi then arr
    else
      let child :=
        if child+1 < hi && less (arr.get! (first+child)) (arr.get! (first+child+1)) then child+1
        else child
      if !(less (arr.get! (first+root)) (arr.get! (first+child))) then arr
      else siftDownFn less first hi fuel (swapA arr (first+root) (first+child)) child

/-- Heap-construction loop of `heapSort_func` (`i` descending to 0). -/
def heapInit [Inhabited α] (less : α → α → Bool) (first hi : Nat) : Nat → Array α → Nat → Array α
  | 0, arr, _ => arr
  | fuel+1, arr, i =>
    let arr := siftDownFn less first hi (hi+1) arr i
    if i = 0 then arr else heapInit less first hi fuel arr (i-1)

/-- Pop loop of `heapSort_func` (`i` descending to 0). -/
def heapPop [Inhabited α] (less : α → α → Bool) (first : Nat) : Nat → Array α → Nat → Array α
  | 0, arr, _ => arr
  | fuel+1, arr, i =>
    let arr := swapA arr first (first + i)
    let arr := siftDownFn less first i (i+1) arr 0
    if i = 0 then arr else heapPop less first fuel arr (i-1)

/-- Model of `heapSort_func(data, a, b)`. -/
def goHeapSort [Inhabited α] (less : α → α → Bool) (arr : Array α) (a b : Nat) : Array α :=
  let first := a
  let hi := b - a
  let arr := heapInit less first hi ((hi-1)/2 + 1) arr ((hi-1)/2)
  if hi = 0 then arr else heapPop less first hi arr (hi - 1)

/-- Model of `reverseRange_func(data, a, b)`. -/
def reverseRangeFn [Inhabited α] : Nat → Array α → Nat → Nat → Array α
  | 0, arr, _, _ => arr
  | fuel+1, arr, i, j => if i < j then reverseRangeFn fuel (swapA arr i j) (i+1) (j-1) else arr

/-- Entry point matching `reverseRange_func`'s bounds. -/
def goReverseRange [Inhabited α] (arr : Array α) (a b : Nat) : Array α :=
  reverseRangeFn (b+1) arr a (b-1)

/-- Sortedness hints of `choosePivot_func`. -/
inductive SortHint
  | increasingHint
  | decreasingHint
  | unknownHint
deriving DecidableEq, BEq

/-- Model of `order2_func`: order two indices by the comparison, counting
index swaps. -/
def order2Fn [Inhabited α] (less : α → α → Bool) (arr : Array α) (a b swaps : Nat) :
    Nat × Nat × Nat :=
  if less (arr.get! b) (arr.get! a) then (b, a, swaps+1) else (a, b, swaps)

/-- Model of `median_func`: index of the median of three cells. -/
def medianFn [Inhabited α] (less : α → α → Bool) (arr : Array α) (a b c swaps : Nat) :
    Nat × Nat :=
  let (a1, b1, s1) := order2Fn less arr a b swaps
  let (b2, _, s2) := order2Fn less arr b1 c s1
  let (_, b3, s3) := order2Fn less arr a1 b2 s2
  (b3, s3)

/-- Model of `medianAdjacent_func`: median of a cell and its neighbours. -/
def medianAdjacentFn [Inhabited α] (less : α → α → Bool) (arr : Array α) (i swaps : Nat) :
    Nat × Nat :=
  medianFn less arr (i-1) i (i+1) swaps

/-- Model of `choosePivot_func`: approximate-median pivot selection with a
sortedness hint derived from the number of index swaps. -/
def choosePivotFn [Inhabited α] (less : α → α → Bool) (arr : Array α) (a b : Nat) :
    Nat × SortHint :=
  let l := b - a
  let i0 := a + l/4*1
  let j0 := a + l/4*2
  let k0 := a + l/4*3
  let (j, swaps) :=
    if l ≥ 8 then
      if l ≥ 50 then
        let (i1, s1) := medianAdjacentFn less arr i0 0
        let (j1, s2) := medianAdjacentFn less arr j0 s1
        let (k1, s3) := medianAdjacentFn less arr k0 s2
        medianFn less arr i1 j1 k1 s3
      else
        medianFn less arr i0 j0 k0 0
    else (j0, 0)
  if swaps = 0 then (j, .increasingHint)
  else if swaps = 12 then (j, .decreasingHint)
  else (j, .unknownHint)

/-- Left-shifting loop of Go's partial insertion sort. -/
def shiftLeftLoop [Inhabited α] (less : α → α → Bool) : Nat → Array α → Nat → Array α
  | 0, arr, _ => arr
  | fuel+1, arr, j =>
    if j ≥ 1 && less (arr.get! j) (arr.get! (j-1)) then
      shiftLeftLoop less fuel (swapA arr j (j-1)) (j-1)
    else arr

/-- Right-shifting loop of Go's partial insertion sort. -/
def shiftRightLoop [Inhabited α] (less : α → α → Bool) (b : Nat) : Nat → Array α → Nat → Array α
  | 0, arr, _ => arr
  | fuel+1, arr, j =>
    if j < b && less (arr.get! j) (arr.get! (j-1)) then
      shiftRightLoop less b fuel (swapA arr j (j-1)) (j+1)
    else arr

/-- Forward scan for the first adjacent out-of-order pair. -/
def scanSortedFwd [Inhabited α] (less : α → α → Bool) (b : Nat) : Nat → Array α → Nat → Nat
  | 0, _, i => i
  | fuel+1, arr, i =>
    if i < b && !(less (arr.get! i) (arr.get! (i-1))) then scanSortedFwd less b fuel arr (i+1)
    else i

/-- Model of the body of Go's `partialInsertionSort` helper: up to five
adjacent out-of-order pairs are repaired (only on ranges of at least 50
elements); returns the array and whether it ended fully sorted. -/
def semiSortSteps [Inhabited α] (less : α → α → Bool) (a b : Nat) :
    Nat → Array α → Nat → Array α × Bool
  | 0, arr, _ => (arr, false)
  | steps+1, arr, i =>
    let i := scanSortedFwd less b (b+1) arr i
    if i = b then (arr, true)
    else if b - a < 50 then (arr, false)
    else
      let arr := swapA arr i (i-1)
      let arr := if i - a ≥ 2 then shiftLeftLoop less (i+1) arr (i-1) else arr
      let arr := if b - i ≥ 2 then shiftRightLoop less b (b+1) arr (i+1) else arr
      semiSortSteps less a b steps arr i

/-- Entry point of the partial insertion sort, with its five-step budget. -/
def semiInsertionSort [Inhabited α] (less : α → α → Bool) (arr : Array α) (a b : Nat) :
    Array α × Bool :=
  semiSortSteps less a b 5 arr (a+1)

/-- Upward scan of `partition_func` (`for i <= j && data.Less(i, a)`). -/
def partScanUp [Inhabited α] (less : α → α → Bool) (arr : Array α) (a j : Nat) :
    Nat → Nat → Nat
  | 0, i => i
  | fuel+1, i =>
    if i ≤ j && less (arr.get! i) (arr.get! a) then partScanUp less arr a j fuel (i+1) else i

/-- Downward scan of `partition_func` (`for i <= j && !data.Less(j, a)`). -/
def partScanDown [Inhabited α] (less : α → α → Bool) (arr : Array α) (a i : Nat) :
    Nat → Nat → Nat
  | 0, j => j
  | fuel+1, j =>
    if i ≤ j && !(less (arr.get! j) (arr.get! a)) then partScanDown less arr a i fuel (j-1) else j

/-- Main exchanging loop of `partition_func`. -/
def partLoop [Inhabited α] (less : α → α → Bool) (a b : Nat) :
    Nat → Array α → Nat → Nat → Array α × Nat × Nat
  | 0, arr, i, j => (arr, i, j)
  | fuel+1, arr, i, j =>
    let i := partScanUp less arr a j (b+1) i
    let j := partScanDown less arr a i (b+1) j
    if i > j then (arr, i, j)
    else partLoop less a b fuel (swapA arr i j) (i+1) (j-1)

/-- Model of `partition_func(data, a, b, pivot)`: Hoare partition around the
pivot moved to position `a`; returns the new pivot position and whether the
range was already partitioned. -/
def partitionFn [Inhabited α] (less : α → α → Bool) (arr : Array α) (a b pivot : Nat) :
    Array α × Nat × Bool :=
  let arr := swapA arr a pivot
  let i := partScanUp less arr a (b-1) (b+1) (a+1)
  let j := partScanDown less arr a i (b+1) (b-1)
  if i > j then
    (swapA arr j a, j, true)
  else
    let arr := swapA arr i j
    let (arr, _, j2) := partLoop less a b (b+1) arr (i+1) (j-1)
    (swapA arr j2 a, j2, false)

/-- Upward scan of `partitionEqual_func`. -/
def peScanUp [Inhabited α] (less : α → α → Bool) (arr : Array α) (a j : Nat) :
    Nat → Nat → Nat
  | 0, i => i
  | fuel+1, i =>
    if i ≤ j && !(less (arr.get! a) (arr.get! i)) then peScanUp less arr a j fuel (i+1) else i

/-- Downward scan of `partitionEqual_func`. -/
def peScanDown [Inhabited α] (less : α → α → Bool) (arr : Array α) (a i : Nat) :
    Nat → Nat → Nat
  | 0, j => j
  | fuel+1, j =>
    if i ≤ j && less (arr.get! a) (arr.get! j) then peScanDown less arr a i fuel (j-1) else j

/-- Exchanging loop of `partitionEqual_func`. -/
def peLoop [Inhabited α] (less : α → α → Bool) (a b : Nat) :
    Nat → Array α → Nat → Nat → Array α × Nat
  | 0, arr, i, _ => (arr, i)
  | fuel+1, arr, i, j =>
    let i := peScanUp less arr a j (b+1) i
    let j := peScanDown less arr a i (b+1) j
    if i > j then (arr, i)
    else peLoop less a b fuel (swapA arr i j) (i+1) (j-1)

/-- Model of `partitionEqual_func(data, a, b, pivot)`: moves elements equal
to the pivot to the front, returning the first unequal position. -/
def partitionEqualFn [Inhabited α] (less : α → α → Bool) (arr : Array α) (a b pivot : Nat) :
    Array α × Nat :=
  let arr := swapA arr a pivot
  peLoop less a b (b+1) arr (a+1) (b-1)

/-- Number of bits of a natural number (`math/bits.Len`). -/
def bitsLen (n : Nat) : Nat := if n = 0 then 0 else Nat.log2 n + 1

/-- Model of the pdqsort helper `nextPowerOfTwo`. -/
def nextPow2 (n : Nat) : Nat := 2 ^ bitsLen n

/-- One step of the xorshift generator used by `breakPatterns`. -/
def xorshiftNext (r : Nat) : Nat :=
  let m := 2^64
  let r := (r ^^^ (r <<< 13)) % m
  let r := r ^^^ (r >>> 17)
  (r ^^^ (r <<< 5)) % m

/-- Model of `breakPatterns_func`: scrambles three cells around the middle
using a deterministic xorshift seeded with the range length. -/
def breakPatternsFn [Inhabited α] (arr : Array α) (a b : Nat) : Array α :=
  let length := b - a
  if length ≥ 8 then
    let modulus := nextPow2 length
    let idx := a + (length/4)*2 - 1
    let r1 := xorshiftNext length
    let o1 := r1 &&& (modulus - 1)
    let o1 := if o1 ≥ length then o1 - length else o1
    let arr := swapA arr (idx-1) (a+o1)
    let r2 := xorshiftNext r1
    let o2 := r2 &&& (modulus - 1)
    let o2 := if o2 ≥ length then o2 - length else o2
    let arr := swapA arr idx (a+o2)
    let r3 := xorshiftNext r2
    let o3 := r3 &&& (modulus - 1)
    let o3 := if o3 ≥ length then o3 - length else o3
    swapA arr (idx+1) (a+o3)
  else arr

/-- Model of `pdqsort_func(data, a, b, limit)`: the main recursion, with the
outer `for` loop unfolded into tail calls carrying the loop state
(`wasBalanced`, `wasPartitioned`); recursive calls restart both flags. -/
def pdqsortFn [Inhabited α] (less : α → α → Bool) :
    Nat → Array α → Nat → Nat → Nat → Bool → Bool → Array α
  | 0, arr, _, _, _, _, _ => arr
  | fuel+1, arr, a, b, limit, wasBalanced, wasPartitioned =>
    let length := b - a
    if length ≤ 12 then goInsertionSort less arr a b
    else if limit = 0 then goHeapSort less arr a b
    else
      let (arr, limit) :=
        if !wasBalanced then (breakPatternsFn arr a b, limit - 1) else (arr, limit)
      let (pivot, hint) := choosePivotFn less arr a b
      let (arr, pivot, hint) :=
        if hint == SortHint.decreasingHint then
          (goReverseRange arr a b, (b-1) - (pivot - a), SortHint.increasingHint)
        else (arr, pivot, hint)
      let (arr, sortedNow) :=
        if wasBalanced && wasPartitioned && (hint == SortHint.increasingHint) then
          semiInsertionSort less arr a b
        else (arr, false)
      if sortedNow then arr
      else if a > 0 && !(less (arr.get! (a-1)) (arr.get! pivot)) then
        let (arr, mid) := partitionEqualFn less arr a b pivot
        pdqsortFn less fuel arr mid b limit wasBalanced wasPartitioned
      else
        let (arr, mid, alreadyPartitioned) := partitionFn less arr a b pivot
        let wasPartitioned := alreadyPartitioned
        let leftLen := mid - a
        let rightLen := b - mid
        let balanceThreshold := length / 8
        let wasBalanced := decide (min leftLen rightLen ≥ balanceThreshold)
        if leftLen < rightLen then
          let arr := pdqsortFn less fuel arr a mid limit true true
          pdqsortFn less fuel arr (mid+1) b limit wasBalanced wasPartitioned
        else
          let arr := pdqsortFn less fuel arr (mid+1) b limit true true
          pdqsortFn less fuel arr a mid limit wasBalanced wasPartitioned

/-- Model of `sort.Slice(x, less)`: pdqsort over the whole slice with the
depth limit `bits.Len(len(x))`. -/
def sortSliceGo [Inhabited α] (less : α → α → Bool) (l : List α) : List α :=
  let arr := l.toArray
  (pdqsortFn less (4 * arr.size + 64) arr 0 arr.size (bitsLen arr.size) true true).toList

/-- The Go comparison closure of `LoadBlogPosts`:
`posts[i].Date.After(posts[j].Date)`. -/
def dateAfter (a b : PostData) : Bool := decide (b.Date < a.Date)

/-- The records of `LoadBlogPosts` in enumeration (glob) order, before the
final sort (the content of the `posts` slice as the loop leaves it). -/
def loadedPosts (env : Env) (fs : FS) (dir : String) : List PostData :=
  match loadLoop env fs dir (globMd fs dir) with
  | .ok l => l
  | .error _ => []

/-- Template environment in which every parse and execute succeeds. -/
def tmplOk : TmplEnv := ⟨true, true, true, true⟩

/-- Template environment in which executing the home template fails. -/
def tmplHomeExecFail : TmplEnv := ⟨true, true, true, false⟩

/-- Two healthy posts with distinct modification times. -/
def fsW : FS :=
  ⟨[("b.md", ⟨"B", 1, true, true⟩), ("a.md", ⟨"A", 2, true, true⟩)], true⟩

/-- One healthy post named `hello.md` with modification time 5. -/
def fsHello : FS := ⟨[("hello.md", ⟨"hi", 5, true, true⟩)], true⟩

/-- A directory that cannot be read but does contain a Markdown file. -/
def fsDirFail : FS := ⟨[("a.md", ⟨"A", 1, true, true⟩)], false⟩

/-- A directory whose second file (in glob order) fails to stat. -/
def fsStatFail : FS :=
  ⟨[("a.md", ⟨"A", 1, true, true⟩), ("b.md", ⟨"B", 2, false, true⟩)], true⟩

/-- An empty posts directory. -/
def fsEmpty : FS := ⟨[], true⟩

/-- Thirteen healthy posts whose names enumerate as `p00.md` … `p12.md`;
the first twelve share modification time 0 and the last has time 1. -/
def fsTies : FS :=
  ⟨[("p00.md", ⟨"x", 0, true, true⟩), ("p01.md", ⟨"x", 0, true, true⟩),
    ("p02.md", ⟨"x", 0, true, true⟩), ("p03.md", ⟨"x", 0, true, true⟩),
    ("p04.md", ⟨"x", 0, true, true⟩), ("p05.md", ⟨"x", 0, true, true⟩),
    ("p06.md", ⟨"x", 0, true, true⟩), ("p07.md", ⟨"x", 0, true, true⟩),
    ("p08.md", ⟨"x", 0, true, true⟩), ("p09.md", ⟨"x", 0, true, true⟩),
    ("p10.md", ⟨"x", 0, true, true⟩), ("p11.md", ⟨"x", 0, true, true⟩),
    ("p12.md", ⟨"x", 1, true, true⟩)], true⟩

/-- Template environment in which executing the post template fails. -/
def tmplPostExecFail : TmplEnv := ⟨true, false, true, true⟩

/-- Template environment in which parsing the post template pair fails. -/
def tmplPostParseFail : TmplEnv := ⟨false, true, true, true⟩

/-- Template environment in which parsing the home template pair fails. -/
def tmplHomeParseFail : TmplEnv := ⟨true, true, false, true⟩

/-- One post whose file carries a front-matter block before the body. -/
def fsFm : FS := ⟨[("f.md", ⟨"---\ntitle: x\n---\nhello", 1, true, true⟩)], true⟩

/-- The same post with a different front-matter block and the same body. -/
def fsFm2 : FS := ⟨[("f.md", ⟨"---\nauthor: y\n---\nhello", 2, true, true⟩)], true⟩

/-- A successful `find` on the posts listing names an entry of the
directory snapshot. -/
theorem findFile_some_mem {fs : FS} {dir path : String} {x : FileData}
    (h : fs.findFile dir path = some x) : ∃ n, (n, x) ∈ fs.posts := by
  unfold FS.findFile at h
  cases hfind : List.find? (fun e => filepathJoin dir e.1 == path) fs.posts with
  | none => rw [hfind] at h; simp at h
  | some e =>
    rw [hfind] at h
    obtain ⟨n, v⟩ := e
    simp only [Option.map_some'] at h
    injection h with h
    subst h
    exact ⟨n, List.mem_of_find?_eq_some hfind⟩

/-- A successful `os.Stat` result is the data of one of the directory's
entries. -/
theorem stat_ok_mem {fs : FS} {dir path : String} {d : FileData}
    (h : fs.stat dir path = .ok d) : ∃ n, (n, d) ∈ fs.posts := by
  unfold FS.stat at h
  cases hf : fs.findFile dir path with
  | none => rw [hf] at h; exact absurd h (by simp)
  | some x =>
    rw [hf] at h
    by_cases hs : x.statOk = true
    · simp only [hs, if_true] at h
      injection h with h
      subst h
      exact findFile_some_mem hf
    · simp only [hs, if_false] at h
      exact absurd h (by simp)

/-- The loop of `LoadBlogPosts` produces one record per processed path. -/
theorem loadLoop_length (env : Env) (fs : FS) (dir : String) :
    ∀ paths l, loadLoop env fs dir paths = .ok l → l.length = paths.length := by
  intro paths
  induction paths with
  | nil =>
    intro l h
    simp only [loadLoop] at h
    injection h with h
    simp [← h]
  | cons p rest ih =>
    intro l h
    simp only [loadLoop] at h
    cases hs : fs.stat dir p with
    | error e => rw [hs] at h; simp at h
    | ok info =>
      rw [hs] at h
      cases hr : RenderMarkdown env fs dir p with
      | ioErr => rw [hr] at h; simp at h
      | panicked => rw [hr] at h; simp at h
      | ok c =>
        rw [hr] at h
        cases hl : loadLoop env fs dir rest with
        | error e => rw [hl] at h; simp at h
        | ok ps =>
          rw [hl] at h
          injection h with h
          rw [← h]
          simp [ih ps hl]

/-- A true `statIsOk` yields the stat's successful result. -/
theorem statIsOk_ok {fs : FS} {dir path : String} (h : statIsOk fs dir path = true) :
    ∃ info, fs.stat dir path = .ok info := by
  unfold statIsOk at h
  cases hs : fs.stat dir path with
  | ok info => exact ⟨info, rfl⟩
  | error e => rw [hs] at h; simp at h

/-- A true `rmIsOk` yields the rendering's HTML result. -/
theorem rmIsOk_ok {env : Env} {fs : FS} {dir path : String}
    (h : rmIsOk env fs dir path = true) :
    ∃ c, RenderMarkdown env fs dir path = .ok c := by
  unfold rmIsOk at h
  cases hr : RenderMarkdown env fs dir path with
  | ok c => exact ⟨c, rfl⟩
  | ioErr => rw [hr] at h; simp at h
  | panicked => rw [hr] at h; simp at h

/-- When every path stats and renders successfully, the loop succeeds. -/
theorem loadLoop_ok_of_healthy (env : Env) (fs : FS) (dir : String) :
    ∀ paths, (∀ p ∈ paths, statIsOk fs dir p = true ∧ rmIsOk env fs dir p = true) →
      ∃ l, loadLoop env fs dir paths = .ok l := by
  intro paths
  induction paths with
  | nil => intro _; exact ⟨[], rfl⟩
  | cons p rest ih =>
    intro hall
    obtain ⟨hstat, hrm⟩ := hall p (List.mem_cons_self p rest)
    obtain ⟨info, hs⟩ := statIsOk_ok hstat
    obtain ⟨c, hr⟩ := rmIsOk_ok hrm
    obtain ⟨l, hl⟩ := ih (fun q hq => hall q (List.mem_cons_of_mem p hq))
    exact ⟨⟨CleanTitle (filepathBase p), info.modTime,
            trimSuffix (filepathBase p) (filepathExt (filepathBase p)), c⟩ :: l,
      by simp [loadLoop, hs, hr, hl]⟩

/-- Every record the loop produces takes its date from the modification
time of one of the directory's entries. -/
theorem loadLoop_dates (env : Env) (fs : FS) (dir : String) :
    ∀ paths l, loadLoop env fs dir paths = .ok l →
      ∀ x ∈ l, ∃ n d, (n, d) ∈ fs.posts ∧ x.Date = d.modTime := by
  intro paths
  induction paths with
  | nil =>
    intro l h
    simp only [loadLoop] at h
    injection h with h
    rw [← h]
    intro x hx
    simp at hx
  | cons p rest ih =>
    intro l h
    simp only [loadLoop] at h
    cases hs : fs.stat dir p with
    | error e => rw [hs] at h; simp at h
    | ok info =>
      rw [hs] at h
      cases hr : RenderMarkdown env fs dir p with
      | ioErr => rw [hr] at h; simp at h
      | panicked => rw [hr] at h; simp at h
      | ok c =>
        rw [hr] at h
        cases hl : loadLoop env fs dir rest with
        | error e => rw [hl] at h; simp at h
        | ok ps =>
          rw [hl] at h
          injection h with h
          rw [← h]
          intro x hx
          rcases List.mem_cons.mp hx with hx | hx
          · obtain ⟨n, hmem⟩ := stat_ok_mem hs
            exact ⟨n, info, hmem, by rw [hx]⟩
          · exact ih ps hl x hx

/-- The loop aborts with a returned error at the first path whose stat
fails or whose render returns a read error, provided the paths before it
are healthy. -/
theorem loadLoop_firstFail (env : Env) (fs : FS) (dir : String) :
    ∀ pre path rest,
      (∀ q ∈ pre, statIsOk fs dir q = true ∧ rmIsOk env fs dir q = true) →
      (statIsOk fs dir path = false ∨ RenderMarkdown env fs dir path = .ioErr) →
      loadLoop env fs dir (pre ++ path :: rest) = .error .fsErr := by
  intro pre
  induction pre with
  | nil =>
    intro path rest _ hfail
    rcases hfail with hfail | hfail
    · unfold statIsOk at hfail
      cases hs : fs.stat dir path with
      | error e => simp [loadLoop, hs]
      | ok info => rw [hs] at hfail; simp at hfail
    · cases hs : fs.stat dir path with
      | error e => simp [loadLoop, hs]
      | ok info => simp [loadLoop, hs, hfail]
  | cons q pre ih =>
    intro path rest hpre hfail
    obtain ⟨hstat, hrm⟩ := hpre q (List.mem_cons_self q pre)
    obtain ⟨info, hs⟩ := statIsOk_ok hstat
    obtain ⟨c, hr⟩ := rmIsOk_ok hrm
    have hrec := ih path rest (fun x hx => hpre x (List.mem_cons_of_mem q hx)) hfail
    simp [loadLoop, hs, hr, hrec]

/-- C1: for every state of the posts directory containing N Markdown files
(readable directory, every file statting and rendering successfully, as the
claim's happy path presumes), `LoadBlogPosts` returns exactly N records —
one per `*.md` file — and the returned list is sorted by the `Date` field
in descending order. -/
theorem C1_listing_count_and_sorted (env : Env) (fs : FS)
    (hdir : fs.dirReadable = true)
    (hok : ∀ p ∈ globMd fs "post", statIsOk fs "post" p = true ∧ rmIsOk env fs "post" p = true) :
    ∃ l, LoadBlogPosts env fs = .ok l ∧
      l.length = ((fs.posts.map Prod.fst).filter (fun n => matchesMdName n)).length ∧
      List.Pairwise dateDescR l := by
  obtain ⟨l0, hl0⟩ := loadLoop_ok_of_healthy env fs "post" (globMd fs "post") hok
  refine ⟨sortByDateDesc l0, ?_, ?_, ?_⟩
  · unfold LoadBlogPosts LoadBlogPostsDir
    rw [hl0]
  · have h1 : (sortByDateDesc l0).length = l0.length := by
      simp [sortByDateDesc, List.length_insertionSort]
    rw [h1, loadLoop_length env fs "post" _ l0 hl0]
    simp [globMd, globNames, hdir, List.length_insertionSort]
  · exact List.sorted_insertionSort dateDescR l0

/-- Witness for C1 on a concrete two-post directory. -/
theorem C1_listing_count_and_sorted_witness :
    ∃ l, LoadBlogPosts idEnv fsW = .ok l ∧
      l.length = ((fsW.posts.map Prod.fst).filter (fun n => matchesMdName n)).length ∧
      List.Pairwise dateDescR l :=
  C1_listing_count_and_sorted idEnv fsW rfl (by decide)

/-- C2: the derived title is the filename with its extension removed, every
dash and underscore replaced by a space, and each word capitalized; in
particular `CleanTitle "my-first_post.md" = "My First Post"`. -/
theorem C2_clean_title :
    (∀ f : String, CleanTitle f =
        casesTitle (replaceChar (replaceChar (trimSuffix f (filepathExt f)) '-' ' ') '_' ' ')) ∧
    CleanTitle "my-first_post.md" = "My First Post" ∧
    CleanTitle "hello_world.md" = "Hello World" :=
  ⟨fun _ => rfl, by decide, by decide⟩

/-- C10: the slug taken from the URL path is joined into the file path with
no validation, and for the slug `../nav/about` the constructed path
resolves outside the posts directory. -/
theorem C10_no_validation_path_escape :
    postFilePath "/post/../nav/about" = "nav/about.md" ∧
    strStartsWith (postFilePath "/post/../nav/about") "post/" = false ∧
    (∀ u : String, postFilePath u = filepathJoin "post" (trimPrefixStr u "/post/" ++ ".md")) :=
  ⟨by decide, by decide, fun _ => rfl⟩

/-- Unfolding equation for `LoadPost` with its `let` bindings expanded. -/
theorem LoadPost_eq (env : Env) (fs : FS) (slug : String) : LoadPost env fs slug =
    (match fs.stat "posts" (filepathJoin "posts" (slug ++ ".md")) with
     | .error .notExist => .err
     | _ =>
       match RenderMarkdown env fs "posts" (filepathJoin "posts" (slug ++ ".md")) with
       | .ioErr => .err
       | .panicked => .panicked
       | .ok content =>
         match fs.stat "posts" (filepathJoin "posts" (slug ++ ".md")) with
         | .error _ => .err
         | .ok info =>
           .ok ⟨CleanTitle (filepathBase (filepathJoin "posts" (slug ++ ".md"))),
                info.modTime, slug, content⟩) := rfl

/-- C3 counterexample: in `main.go`'s `PostHandler` the record's `Date` is
the current time (99 here), not the file's modification time (5), so the
claim that every constructed record carries the file's modification time is
false at this concrete state. -/
theorem C3_counterexample :
    (handlerPost (PostHandler idEnv fsHello tmplOk 99 "/post/hello")).map PostData.Date =
      some 99 ∧
    (FS.findFile fsHello "post" "post/hello.md").map FileData.modTime = some 5 ∧
    (99 : Int) ≠ 5 := by decide

/-- C3 amended: records built by the listing loop and by the Alt variant's
`LoadPost` take their date from a directory entry's modification time, but
`main.go`'s `PostHandler` sets the record's date to the current time. -/
theorem C3_amended_dates (env : Env) (fs1 fs2 fs3 : FS) (dir slug : String)
    (l : List PostData) (p q : PostData) (tmpl : TmplEnv) (now : Int) (u : String) :
    (LoadBlogPostsDir env fs1 dir = .ok l →
      ∀ x ∈ l, ∃ n d, (n, d) ∈ fs1.posts ∧ x.Date = d.modTime) ∧
    (LoadPost env fs2 slug = .ok p → ∃ n d, (n, d) ∈ fs2.posts ∧ p.Date = d.modTime) ∧
    (handlerPost (PostHandler env fs3 tmpl now u) = some q → q.Date = now) := by
  refine ⟨?_, ?_, ?_⟩
  · intro h x hx
    unfold LoadBlogPostsDir at h
    cases hl : loadLoop env fs1 dir (globMd fs1 dir) with
    | error e => rw [hl] at h; cases e <;> simp at h
    | ok l0 =>
      rw [hl] at h
      simp only [LoadResult.ok.injEq] at h
      subst h
      have hx0 : x ∈ l0 := (List.perm_insertionSort dateDescR l0).mem_iff.mp hx
      exact loadLoop_dates env fs1 dir _ l0 hl x hx0
  · intro h
    rw [LoadPost_eq] at h
    cases hs1 : fs2.stat "posts" (filepathJoin "posts" (slug ++ ".md")) with
    | error e =>
      rw [hs1] at h
      cases e with
      | notExist => simp at h
      | ioFail =>
        cases hr : RenderMarkdown env fs2 "posts" (filepathJoin "posts" (slug ++ ".md")) with
        | ioErr => rw [hr] at h; simp at h
        | panicked => rw [hr] at h; simp at h
        | ok c => rw [hr] at h; simp at h
    | ok info =>
      rw [hs1] at h
      cases hr : RenderMarkdown env fs2 "posts" (filepathJoin "posts" (slug ++ ".md")) with
      | ioErr => rw [hr] at h; simp at h
      | panicked => rw [hr] at h; simp at h
      | ok c =>
        rw [hr] at h
        simp only [LPResult.ok.injEq] at h
        obtain ⟨n, hmem⟩ := stat_ok_mem hs1
        refine ⟨n, info, hmem, ?_⟩
        rw [← h]
  · intro h
    unfold PostHandler at h
    cases hr : RenderMarkdown env fs3 "post" (postFilePath u) with
    | ioErr => rw [hr] at h; simp [handlerPost] at h
    | panicked => rw [hr] at h; simp [handlerPost] at h
    | ok c =>
      rw [hr] at h
      by_cases hp : tmpl.postParseOk = true
      · by_cases he : tmpl.postExecOk = true
        · simp only [hp, he, if_true, handlerPost, Option.some.injEq] at h
          rw [← h]
        · simp [hp, he, handlerPost] at h
      · simp [hp, handlerPost] at h

/-- Witness for the amended C3: concrete listing record, Alt `LoadPost`
record and `main.go` handler record with their date sources. -/
theorem C3_amended_dates_witness :
    (∀ x ∈ ([⟨"Hello", 5, "hello", "hi"⟩] : List PostData),
      ∃ n d, (n, d) ∈ fsHello.posts ∧ x.Date = d.modTime) ∧
    (∃ n d, (n, d) ∈ fsHello.posts ∧ (⟨"Hello", 5, "hello", "hi"⟩ : PostData).Date = d.modTime) ∧
    ((⟨"Hello", 99, "hello", "hi"⟩ : PostData).Date = 99) := by
  have h := C3_amended_dates idEnv fsHello fsHello fsHello "posts" "hello"
    [⟨"Hello", 5, "hello", "hi"⟩] ⟨"Hello", 5, "hello", "hi"⟩ ⟨"Hello", 99, "hello", "hi"⟩
    tmplOk 99 "/post/hello"
  exact ⟨h.1 (by decide), h.2.1 (by decide), h.2.2 (by decide)⟩

/-- C4: for every slug whose expected file does not exist, both variants of
the single-post lookup answer 404 and neither panics. -/
theorem C4_missing_file_not_found (env : Env) (fs : FS) (tmpl : TmplEnv) (now : Int)
    (u1 u2 : String)
    (h1 : fs.findFile "post" (postFilePath u1) = none)
    (h2 : fs.findFile "posts" (filepathJoin "posts" (altSlug u2 ++ ".md")) = none) :
    PostHandler env fs tmpl now u1 = .notFound ∧
    AltPostHandler env fs tmpl u2 = .notFound ∧
    PostHandler env fs tmpl now u1 ≠ .panicked ∧
    AltPostHandler env fs tmpl u2 ≠ .panicked := by
  have hrm : RenderMarkdown env fs "post" (postFilePath u1) = .ioErr := by
    unfold RenderMarkdown FS.readFile
    rw [h1]
  have hst : fs.stat "posts" (filepathJoin "posts" (altSlug u2 ++ ".md")) =
      .error .notExist := by
    unfold FS.stat
    rw [h2]
  have hmain : PostHandler env fs tmpl now u1 = .notFound := by
    unfold PostHandler
    rw [hrm]
  have halt : AltPostHandler env fs tmpl u2 = .notFound := by
    unfold AltPostHandler
    rw [LoadPost_eq, hst]
  exact ⟨hmain, halt, by rw [hmain]; simp, by rw [halt]; simp⟩

/-- Witness for C4 on an empty posts directory. -/
theorem C4_missing_file_not_found_witness :
    PostHandler idEnv fsEmpty tmplOk 0 "/post/nope" = .notFound ∧
    AltPostHandler idEnv fsEmpty tmplOk "/post/nope" = .notFound ∧
    PostHandler idEnv fsEmpty tmplOk 0 "/post/nope" ≠ .panicked ∧
    AltPostHandler idEnv fsEmpty tmplOk "/post/nope" ≠ .panicked :=
  C4_missing_file_not_found idEnv fsEmpty tmplOk 0 "/post/nope" "/post/nope"
    (by decide) (by decide)

/-- C5: whenever a single-post lookup returns a record, the record's
content is exactly the result of `RenderMarkdown` on the expected file, in
both variants. -/
theorem C5_lookup_content_matches_render (env : Env) (fs1 fs2 : FS) (tmpl : TmplEnv)
    (now : Int) (u slug : String) (p q : PostData) :
    (handlerPost (PostHandler env fs1 tmpl now u) = some p →
      RenderMarkdown env fs1 "post" (postFilePath u) = .ok p.Content) ∧
    (LoadPost env fs2 slug = .ok q →
      RenderMarkdown env fs2 "posts" (filepathJoin "posts" (slug ++ ".md")) = .ok q.Content) := by
  constructor
  · intro h
    unfold PostHandler at h
    cases hr : RenderMarkdown env fs1 "post" (postFilePath u) with
    | ioErr => rw [hr] at h; simp [handlerPost] at h
    | panicked => rw [hr] at h; simp [handlerPost] at h
    | ok c =>
      rw [hr] at h
      by_cases hp : tmpl.postParseOk = true
      · by_cases he : tmpl.postExecOk = true
        · simp only [hp, he, if_true, handlerPost, Option.some.injEq] at h
          rw [← h]
        · simp [hp, he, handlerPost] at h
      · simp [hp, handlerPost] at h
  · intro h
    rw [LoadPost_eq] at h
    cases hs1 : fs2.stat "posts" (filepathJoin "posts" (slug ++ ".md")) with
    | error e =>
      rw [hs1] at h
      cases e with
      | notExist => simp at h
      | ioFail =>
        cases hr : RenderMarkdown env fs2 "posts" (filepathJoin "posts" (slug ++ ".md")) with
        | ioErr => rw [hr] at h; simp at h
        | panicked => rw [hr] at h; simp at h
        | ok c => rw [hr] at h; simp at h
    | ok info =>
      rw [hs1] at h
      cases hr : RenderMarkdown env fs2 "posts" (filepathJoin "posts" (slug ++ ".md")) with
      | ioErr => rw [hr] at h; simp at h
      | panicked => rw [hr] at h; simp at h
      | ok c =>
        rw [hr] at h
        simp only [LPResult.ok.injEq] at h
        rw [← h]

/-- Witness for C5 with one concrete record from each variant. -/
theorem C5_lookup_content_matches_render_witness :
    RenderMarkdown idEnv fsHello "post" (postFilePath "/post/hello") =
      .ok (PostData.Content ⟨"Hello", 99, "hello", "hi"⟩) ∧
    RenderMarkdown idEnv fsHello "posts" (filepathJoin "posts" ("hello" ++ ".md")) =
      .ok (PostData.Content ⟨"Hello", 5, "hello", "hi"⟩) := by
  have h := C5_lookup_content_matches_render idEnv fsHello fsHello tmplOk 99 "/post/hello"
    "hello" ⟨"Hello", 99, "hello", "hi"⟩ ⟨"Hello", 5, "hello", "hi"⟩
  exact ⟨h.1 (by decide), h.2 (by decide)⟩

/-- C6 counterexample: when the posts directory cannot be read,
`LoadBlogPosts` does not return an error — `filepath.Glob` swallows the
I/O failure and the function succeeds with an empty listing, even though
the directory holds a Markdown file. -/
theorem C6_counterexample :
    fsDirFail.dirReadable = false ∧
    ((fsDirFail.posts.map Prod.fst).filter (fun n => matchesMdName n)).length = 1 ∧
    LoadBlogPosts idEnv fsDirFail = .ok [] ∧
    LoadBlogPosts idEnv fsDirFail ≠ .fsErr := by decide

/-- C6 amended: a stat or read failure on any file aborts the listing with
an error and no partial results are ever produced, but a directory read
failure yields a successful empty listing instead of an error. -/
theorem C6_amended_failure_modes (env : Env) (fs1 fs2 fs3 : FS) (dir1 dir2 dir3 : String)
    (l : List PostData) (pre : List String) (path : String) (rest : List String) :
    (LoadBlogPostsDir env fs1 dir1 = .ok l → l.length = (globMd fs1 dir1).length) ∧
    (fs2.dirReadable = false → LoadBlogPostsDir env fs2 dir2 = .ok []) ∧
    (globMd fs3 dir3 = pre ++ path :: rest →
      (∀ x ∈ pre, statIsOk fs3 dir3 x = true ∧ rmIsOk env fs3 dir3 x = true) →
      (statIsOk fs3 dir3 path = false ∨ RenderMarkdown env fs3 dir3 path = .ioErr) →
      LoadBlogPostsDir env fs3 dir3 = .fsErr) := by
  refine ⟨?_, ?_, ?_⟩
  · intro h
    unfold LoadBlogPostsDir at h
    cases hl : loadLoop env fs1 dir1 (globMd fs1 dir1) with
    | error e => rw [hl] at h; cases e <;> simp at h
    | ok l0 =>
      rw [hl] at h
      simp only [LoadResult.ok.injEq] at h
      subst h
      have h1 : (sortByDateDesc l0).length = l0.length := by
        simp [sortByDateDesc, List.length_insertionSort]
      rw [h1]
      exact loadLoop_length env fs1 dir1 _ l0 hl
  · intro h
    simp [LoadBlogPostsDir, globMd, globNames, h, loadLoop, sortByDateDesc]
  · intro hg hpre hfail
    unfold LoadBlogPostsDir
    rw [hg, loadLoop_firstFail env fs3 dir3 pre path rest hpre hfail]

/-- Witness for the amended C6: a full listing, an unreadable directory,
and a listing aborted by a stat failure. -/
theorem C6_amended_failure_modes_witness :
    (([⟨"A", 2, "a", "A"⟩, ⟨"B", 1, "b", "B"⟩] : List PostData).length =
      (globMd fsW "post").length) ∧
    LoadBlogPostsDir idEnv fsDirFail "post" = .ok [] ∧
    LoadBlogPostsDir idEnv fsStatFail "post" = .fsErr := by
  have h := C6_amended_failure_modes idEnv fsW fsDirFail fsStatFail "post" "post" "post"
    [⟨"A", 2, "a", "A"⟩, ⟨"B", 1, "b", "B"⟩] ["post/a.md"] "post/b.md" []
  exact ⟨h.1 (by decide), h.2.1 (by decide), h.2.2 (by decide) (by decide) (by decide)⟩

/-- C7: when a file begins with a well-formed front-matter block (and the
block unmarshals), rendering converts exactly the body with the block
stripped: the conversion input is the body, the block's text is absent from
the conversion input whenever it is absent from the body, and the output
does not depend on the block at all. -/
theorem C7_frontmatter_stripped (env : Env) (fs1 fs2 : FS) (dir path : String)
    (meta body md md2 meta2 : String)
    (hread : fs1.readFile dir path = some md)
    (hfm : detectFrontmatter md = .block meta body)
    (hum : env.unmarshalOk meta = true)
    (hread2 : fs2.readFile dir path = some md2)
    (hfm2 : detectFrontmatter md2 = .block meta2 body)
    (hum2 : env.unmarshalOk meta2 = true) :
    RenderMarkdown env fs1 dir path = .ok (env.convert body) ∧
    renderInput md = body ∧
    (strContainsSub body meta = false → strContainsSub (renderInput md) meta = false) ∧
    RenderMarkdown env fs2 dir path = RenderMarkdown env fs1 dir path := by
  have h1 : RenderMarkdown env fs1 dir path = .ok (env.convert body) := by
    simp [RenderMarkdown, hread, hfm, hum]
  have h2 : renderInput md = body := by
    simp [renderInput, hfm]
  have h4 : RenderMarkdown env fs2 dir path = .ok (env.convert body) := by
    simp [RenderMarkdown, hread2, hfm2, hum2]
  refine ⟨h1, h2, ?_, ?_⟩
  · intro h
    rw [h2]
    exact h
  · rw [h1, h4]

/-- Witness for C7 on a concrete front-mattered file. -/
theorem C7_frontmatter_stripped_witness :
    RenderMarkdown idEnv fsFm "post" "post/f.md" = .ok (idEnv.convert "hello") ∧
    renderInput "---\ntitle: x\n---\nhello" = "hello" ∧
    (strContainsSub "hello" "title: x" = false →
      strContainsSub (renderInput "---\ntitle: x\n---\nhello") "title: x" = false) ∧
    RenderMarkdown idEnv fsFm2 "post" "post/f.md" = RenderMarkdown idEnv fsFm "post" "post/f.md" :=
  C7_frontmatter_stripped idEnv fsFm fsFm2 "post" "post/f.md" "title: x" "hello"
    "---\ntitle: x\n---\nhello" "---\nauthor: y\n---\nhello" "author: y"
    (by decide) (by decide) rfl (by decide) (by decide) rfl

/-- C9 counterexample: a template-execution failure in `HomeHandler` is
passed to `log.Fatal` and terminates the process instead of producing an
HTTP 500 response. -/
theorem C9_counterexample :
    HomeHandler idEnv fsHello tmplHomeExecFail = .fatalExit ∧
    HomeHandler idEnv fsHello tmplHomeExecFail ≠ .serverError := by decide

/-- C9 amended: `PostHandler` surfaces an execution failure as HTTP 500 but
panics on a template-parse failure (`template.Must`); `HomeHandler`
terminates the process (`log.Fatal`) on a loading failure or an execution
failure and panics on a parse failure. -/
theorem C9_amended_template_failures (env : Env) (fs1 fs2 fs3 : FS)
    (tmpl1 tmpl2 tmpl3 tmpl4 : TmplEnv) (now : Int) (u c : String) (l : List PostData)
    (hr : RenderMarkdown env fs1 "post" (postFilePath u) = .ok c)
    (hp1 : tmpl1.postParseOk = true) (he1 : tmpl1.postExecOk = false)
    (hp2 : tmpl2.postParseOk = false)
    (hl : LoadBlogPosts env fs2 = .ok l)
    (hp3 : tmpl3.homeParseOk = true) (he3 : tmpl3.homeExecOk = false)
    (hp4 : tmpl4.homeParseOk = false)
    (hf : LoadBlogPosts env fs3 = .fsErr) :
    PostHandler env fs1 tmpl1 now u = .serverError ∧
    PostHandler env fs1 tmpl2 now u = .panicked ∧
    HomeHandler env fs2 tmpl3 = .fatalExit ∧
    HomeHandler env fs2 tmpl4 = .panicked ∧
    HomeHandler env fs3 tmpl1 = .fatalExit := by
  refine ⟨?_, ?_, ?_, ?_, ?_⟩
  · unfold PostHandler
    rw [hr]
    simp [hp1, he1]
  · unfold PostHandler
    rw [hr]
    simp [hp2]
  · unfold HomeHandler
    rw [hl]
    simp [hp3, he3]
  · unfold HomeHandler
    rw [hl]
    simp [hp4]
  · unfold HomeHandler
    rw [hf]

/-- Witness for the amended C9 with concrete template environments. -/
theorem C9_amended_template_failures_witness :
    PostHandler idEnv fsHello tmplPostExecFail 0 "/post/hello" = .serverError ∧
    PostHandler idEnv fsHello tmplPostParseFail 0 "/post/hello" = .panicked ∧
    HomeHandler idEnv fsHello tmplHomeExecFail = .fatalExit ∧
    HomeHandler idEnv fsHello tmplHomeParseFail = .panicked ∧
    HomeHandler idEnv fsStatFail tmplPostExecFail = .fatalExit :=
  C9_amended_template_failures idEnv fsHello fsHello fsStatFail
    tmplPostExecFail tmplPostParseFail tmplHomeExecFail tmplHomeParseFail 0 "/post/hello" "hi"
    [⟨"Hello", 5, "hello", "hi"⟩]
    (by decide) rfl rfl rfl (by decide) rfl rfl rfl (by decide)

set_option maxRecDepth 100000 in
/-- C8 counterexample: a concrete directory of thirteen posts, twelve of
them sharing one modification time, which `LoadBlogPosts` enumerates in
glob order `p00 … p12`; the `sort.Slice` pdqsort leaves the tied posts in
the order `p06, p02, p03, p04, p05, p00, p07, …, p11, p01`, not in glob
order, so the sort is not stable with respect to the input order for
ties. -/
theorem C8_counterexample :
    (loadedPosts idEnv fsTies "post").map PostData.Slug =
      ["p00", "p01", "p02", "p03", "p04", "p05", "p06",
       "p07", "p08", "p09", "p10", "p11", "p12"] ∧
    (loadedPosts idEnv fsTies "post").map PostData.Date =
      [0, 0, 0, 0, 0, 0, 0, 0, 0, 0, 0, 0, 1] ∧
    (sortSliceGo dateAfter (loadedPosts idEnv fsTies "post")).map PostData.Slug =
      ["p12", "p06", "p02", "p03", "p04", "p05", "p00",
       "p07", "p08", "p09", "p10", "p11", "p01"] ∧
    sortSliceGo dateAfter (loadedPosts idEnv fsTies "post") ≠
      sortByDateDesc (loadedPosts idEnv fsTies "post") := by decide

set_option maxRecDepth 100000 in
/-- C8 amended: `sort.Slice` gives no stability guarantee, so posts with
equal modification times may appear in any order; the returned list is
still a permutation of the enumerated posts sorted by date descending
(shown here on the same thirteen-post directory). -/
theorem C8_amended_unstable_but_sorted :
    List.Pairwise dateDescR (sortSliceGo dateAfter (loadedPosts idEnv fsTies "post")) ∧
    (sortSliceGo dateAfter (loadedPosts idEnv fsTies "post")).Perm
      (loadedPosts idEnv fsTies "post") := by decide
